import Mathlib

/-!
Shallow embedding of the CI automation script `.github/scripts/ai_agent.py`.

The script reads a GitHub issue from environment variables, calls a
generative-model API twice, and materializes the responses into files:
`parse_and_write_files` splits the response on `---FILE_SEPARATOR---`,
extracts a declared file path per block with the regex
`^\s*(?:#|<!--)\s*FILE_PATH:\s*(.*?)\s*(?:-->)?` (MULTILINE), strips an
optional markdown fence, and writes the content.

Strings are modelled as `List Char`; the regex is embedded as a small
backtracking matcher (fuelled, so it computes by `decide`) that follows
Python `re` semantics for this pattern: leftmost search position, greedy
`\s*` (longest first), lazy `(.*?)` (shortest first), left-first
alternation, greedy `(?:-->)?`, `^` at string start or after a newline.
Side effects (warnings, mkdir, writes, `sys.exit`) are modelled as an
event trace; the OS model makes a write to the empty path fail, which is
what `open('')` does (`FileNotFoundError`), and lets every other relative
path succeed.
-/

namespace AiAgent

/-- Whitespace as Python's `str.strip` / regex `\s` treats it (ASCII range
plus the common Latin-1 space characters). -/
def isWs (c : Char) : Bool :=
  c = ' ' || c = '\t' || c = '\n' || c = '\r' || c = '\x0b' || c = '\x0c' ||
  c = '\x1c' || c = '\x1d' || c = '\x1e' || c = '\x1f' || c = '\x85' || c = '\xa0'

/-- Python `str.strip()`: drop whitespace from both ends. -/
def pyStrip (s : List Char) : List Char :=
  ((s.dropWhile isWs).reverse.dropWhile isWs).reverse

/-- Index of the first newline character, as `str.find('\n')` (but as an
`Option` instead of `-1`). -/
def findNl : List Char → Option Nat
  | [] => none
  | c :: rest => if c = '\n' then some 0 else (findNl rest).map (· + 1)

/-- A capture group: start and end offsets into the subject string. -/
abbrev Cap := Nat × Nat

/-- Result of a regex match attempt: end position of the whole match and
the value of group 1, when set. -/
abbrev MRes := Nat × Option Cap

/-- A matcher continuation: receives the current position and the current
group-1 value; returns the overall result when the rest of the pattern
(and pattern suffixes tried by backtracking) succeed. -/
abbrev K := Nat → Option Cap → Option MRes

/-- The final continuation: the pattern is exhausted, accept. -/
def kFin : K := fun p c => some (p, c)

/-- Greedy `\s*` with fuel: try consuming one more whitespace character
first (longest match first), fall back to stopping here. With fuel
`s.length + 1 - pos` the fuel never runs out before the end of the
string, and the fuel-0 fallback coincides with the end-of-string case. -/
def wsGreedyF : Nat → List Char → Nat → Option Cap → K → Option MRes
  | 0, _, pos, cap, k => k pos cap
  | fuel + 1, s, pos, cap, k =>
    match s[pos]? with
    | some c =>
      if isWs c then (wsGreedyF fuel s (pos + 1) cap k).orElse (fun _ => k pos cap)
      else k pos cap
    | none => k pos cap

/-- Greedy `\s*` (wrapper supplying the fuel). -/
def wsGreedy (s : List Char) (pos : Nat) (cap : Option Cap) (k : K) : Option MRes :=
  wsGreedyF (s.length + 1 - pos) s pos cap k

/-- Lazy `(.*?)` capturing as group 1, with fuel: try the shortest
extension first (the continuation at the current position), then extend
over one more non-newline character. The fuel-0 fallback coincides with
the end-of-string case. -/
def dotLazyF : Nat → List Char → Nat → Nat → K → Option MRes
  | 0, _, start, pos, k => k pos (some (start, pos))
  | fuel + 1, s, start, pos, k =>
    (k pos (some (start, pos))).orElse (fun _ =>
      match s[pos]? with
      | some c => if c = '\n' then none else dotLazyF fuel s start (pos + 1) k
      | none => none)

/-- Lazy `(.*?)` (wrapper supplying the fuel). -/
def dotLazy (s : List Char) (start pos : Nat) (k : K) : Option MRes :=
  dotLazyF (s.length + 1 - pos) s start pos k

/-- The regex fragments needed for the source pattern
`^\s*(?:#|<!--)\s*FILE_PATH:\s*(.*?)\s*(?:-->)?` (the `^` anchor is
handled at search level). -/
inductive Re where
  | lit : List Char → Re
  | alt : Re → Re → Re
  | wsStar : Re
  | grpLazy : Re
  | opt : Re → Re
  | seq : Re → Re → Re

/-- Backtracking matcher in continuation-passing style, following Python
`re` backtracking order: alternation tries the left branch first, `?` is
greedy, `\s*` is greedy, `(.*?)` is lazy. -/
def matchRe : Re → List Char → Nat → Option Cap → K → Option MRes
  | .lit cs, s, pos, cap, k =>
    if cs.isPrefixOf (s.drop pos) then k (pos + cs.length) cap else none
  | .alt a b, s, pos, cap, k =>
    (matchRe a s pos cap k).orElse (fun _ => matchRe b s pos cap k)
  | .wsStar, s, pos, cap, k => wsGreedy s pos cap k
  | .grpLazy, s, pos, _, k => dotLazy s pos pos k
  | .opt r, s, pos, cap, k =>
    (matchRe r s pos cap k).orElse (fun _ => k pos cap)
  | .seq a b, s, pos, cap, k =>
    matchRe a s pos cap (fun p c => matchRe b s p c k)

def hashL : List Char := "#".toList
def openCmtL : List Char := "<!--".toList
def fpLabelL : List Char := "FILE_PATH:".toList
def closeCmtL : List Char := "-->".toList

/-- The backtick character (U+0060). -/
def btick : Char := Char.ofNat 96

/-- A triple-backtick fence. -/
def fenceL : List Char := [btick, btick, btick]

/-- `\s*(?:-->)?` — the pattern tail after the lazy capture group. -/
def tailRe : Re := .seq .wsStar (.opt (.lit closeCmtL))

/-- `(.*?)\s*(?:-->)?` — the capture group and its tail. -/
def pathRe : Re := .seq .grpLazy tailRe

/-- `\s*(.*?)\s*(?:-->)?` — from the whitespace after the label. -/
def r4 : Re := .seq .wsStar pathRe

/-- `FILE_PATH:\s*(.*?)\s*(?:-->)?`. -/
def r3 : Re := .seq (.lit fpLabelL) r4

/-- `\s*FILE_PATH:\s*(.*?)\s*(?:-->)?`. -/
def r2 : Re := .seq .wsStar r3

/-- `(?:#|<!--)\s*FILE_PATH:\s*(.*?)\s*(?:-->)?`. -/
def r1 : Re := .seq (.alt (.lit hashL) (.lit openCmtL)) r2

/-- The full source pattern (minus the `^` anchor):
`\s*(?:#|<!--)\s*FILE_PATH:\s*(.*?)\s*(?:-->)?`. -/
def filePathRe : Re := .seq .wsStar r1

/-- `^` in MULTILINE mode: start of string or just after a newline. -/
def isLineStart (s : List Char) (i : Nat) : Bool :=
  i == 0 || s[i - 1]? == some '\n'

/-- `re.search` with the source pattern: try start positions left to
right; the `^` anchor restricts attempts to line starts. Returns
(match start, match end, group 1 offsets). -/
def reSearch (s : List Char) : Option (Nat × Nat × Option Cap) :=
  (List.range (s.length + 1)).findSome? (fun i =>
    if isLineStart s i then
      (matchRe filePathRe s i none kFin).map (fun r => (i, r.1, r.2))
    else none)

/-- The text of a capture group (`match.group(1)`). -/
def capStr (s : List Char) (cap : Option Cap) : List Char :=
  match cap with
  | some (a, b) => (s.drop a).take (b - a)
  | none => []

/-- The `file_path_str` the script computes for a block, when the regex
matches: `match.group(1).strip()`. -/
def filePathStrOf (b : List Char) : Option (List Char) :=
  (reSearch b).map (fun r => pyStrip (capStr b r.2.2))

/-- The literal delimiter `---FILE_SEPARATOR---`. -/
def sepL : List Char := "---FILE_SEPARATOR---".toList

/-- Python `str.split(sep)` scanning left to right (fuelled; the fuel
`s.length + 1` always suffices since every step consumes at least one
character). -/
def splitSepF : Nat → List Char → List Char → List (List Char)
  | 0, s, acc => [acc.reverse ++ s]
  | fuel + 1, s, acc =>
    if sepL.isPrefixOf s then
      acc.reverse :: splitSepF fuel (s.drop sepL.length) []
    else
      match s with
      | [] => [acc.reverse]
      | c :: rest => splitSepF fuel rest (c :: acc)

/-- `response_text.split(FILE_SEPARATOR)`. -/
def splitSep (s : List Char) : List (List Char) :=
  splitSepF (s.length + 1) s []

/-- Lines 100–102: if the block starts with a triple-backtick fence, drop
through the end of that first line; `find('\n')` returning `-1` makes the
slice start at index `-1 + 1 = 0`, leaving the block unchanged. -/
def dropOpenFence (cb : List Char) : List Char :=
  if fenceL.isPrefixOf cb then
    cb.drop (match findNl cb with | some i => i + 1 | none => 0)
  else cb

/-- Lines 103–104: if the block ends with a triple-backtick fence, drop
the final three characters. -/
def dropCloseFence (cb : List Char) : List Char :=
  if fenceL.isSuffixOf cb then cb.take (cb.length - 3) else cb

/-- Lines 99–106: the final content computed from the text after the
matched path declaration: strip, remove an opening fence line, remove a
closing fence, strip again. -/
def contentOf (blockTail : List Char) : List Char :=
  pyStrip (dropCloseFence (dropOpenFence (pyStrip blockTail)))

/-- Content wrapped in a markdown fence with a language tag: three
backticks, the tag, a newline, the body, a newline, three closing
backticks. -/
def fenceWrap (lang abc : List Char) : List Char :=
  fenceL ++ lang ++ ['\n'] ++ abc ++ ['\n'] ++ fenceL

/-- `pathlib.Path(p).parent` rendered as a string, for the simple relative
paths this script handles: everything before the last `/`, else `.`
(so `Path('').parent == Path('.')`). -/
def parentOf (p : List Char) : List Char :=
  match (p.reverse.findIdx? (· = '/')) with
  | none => ['.']
  | some rIdx =>
    let i := p.length - 1 - rIdx
    if i = 0 then ['/'] else p.take i

/-- OS model: `Path(p).write_text(...)` raises (`FileNotFoundError`) when
`p` is the empty path, as `open('')` does; other relative paths are
assumed writable. -/
def writeFails (p : List Char) : Bool := p == []

/-- Observable effects of `parse_and_write_files`, in order. -/
inductive FileEvent where
  | warnNoPath (pfx : List Char)
  | mkdirParents (dir : List Char)
  | writeOk (path content : List Char)
  | writeErr (path content : List Char)
  deriving DecidableEq, Repr

/-- Outcome of running `parse_and_write_files`: the event trace and the
exit status when `sys.exit` was reached. -/
structure RunResult where
  events : List FileEvent
  exit : Option Nat
  deriving DecidableEq, Repr

/-- The per-block loop of `parse_and_write_files` (lines 88–116): skip
blank blocks; warn and continue when the path regex finds nothing;
otherwise create the parent directories, attempt the write, and on a
filesystem error print it and `sys.exit(1)`. -/
def pawGo : List (List Char) → RunResult
  | [] => ⟨[], none⟩
  | b :: rest =>
    if pyStrip b = [] then pawGo rest
    else
      match reSearch b with
      | none =>
        let r := pawGo rest
        ⟨.warnNoPath (b.take 200) :: r.events, r.exit⟩
      | some (_, endPos, cap) =>
        let fps := pyStrip (capStr b cap)
        let content := contentOf (b.drop endPos)
        if writeFails fps then
          ⟨[.mkdirParents (parentOf fps), .writeErr fps content], some 1⟩
        else
          let r := pawGo rest
          ⟨.mkdirParents (parentOf fps) :: .writeOk fps content :: r.events, r.exit⟩

/-- `parse_and_write_files(response_text)`. -/
def parse_and_write_files (responseText : List Char) : RunResult :=
  pawGo (splitSep responseText)

/-- The files a run actually wrote (successful writes only). -/
def writesOf (r : RunResult) : List (List Char × List Char) :=
  r.events.filterMap (fun e =>
    match e with
    | .writeOk p c => some (p, c)
    | _ => none)

/-- Every write event (successful or failing) is immediately preceded by
the creation of the target's parent directories. -/
def mkdirBeforeWrite : List FileEvent → Bool
  | [] => true
  | .mkdirParents d :: .writeOk p _ :: rest =>
    (d == parentOf p) && mkdirBeforeWrite rest
  | .mkdirParents d :: .writeErr p _ :: rest =>
    (d == parentOf p) && mkdirBeforeWrite rest
  | .writeOk _ _ :: _ => false
  | .writeErr _ _ :: _ => false
  | _ :: rest => mkdirBeforeWrite rest

/-! Model of `call_llm` (lines 33–73). The JSON response is modelled
structurally: each `dict.get(key, default)` becomes an `Option` field read
with `Option.getD`. -/

/-- One element of the `parts` list; `get('text', '')` reads an optional
text field. -/
structure RespPart where
  text : Option (List Char)
  deriving DecidableEq, Repr

/-- The `content` object; `get('parts', [])` reads an optional parts
list. -/
structure RespContent where
  parts : Option (List RespPart)
  deriving DecidableEq, Repr

/-- One element of the `candidates` list; `get('content', {})` reads an
optional content object, defaulting to an empty dict (no `parts` key). -/
structure Candidate where
  content : Option RespContent
  deriving DecidableEq, Repr

/-- The parsed JSON body; `get('candidates', [])` reads an optional
candidates list. -/
structure ResponseData where
  candidates : Option (List Candidate)
  deriving DecidableEq, Repr

/-- Outcome of `session.post` + `raise_for_status`: either a
`requests.exceptions.RequestException` (network error or non-2xx status,
carrying a response body when one is available) or a parsed JSON body. -/
inductive HTTPOutcome where
  | requestError (body : Option (List Char))
  | success (data : ResponseData)
  deriving DecidableEq, Repr

/-- Which diagnostic `call_llm` prints before `sys.exit(1)`:
the transport handler (line 65, plus the body when available) or the
parse handler (line 70, for `KeyError`/`IndexError`/`ValueError`). -/
inductive LLMDiag where
  | transport (body : Option (List Char))
  | parseErr
  deriving DecidableEq, Repr

/-- Result of `call_llm`: either the process exits with status 1 after
printing a diagnostic, or the first part's text is returned. -/
inductive CallLLMResult where
  | exitFatal (diag : LLMDiag)
  | ok (text : List Char)
  deriving DecidableEq, Repr

/-- `call_llm` (lines 33–73), as a function of the HTTP outcome: a
transport failure prints the error (and body when available) and exits 1;
an empty/missing `candidates` or `parts` list raises `ValueError`, caught
by the same-shape handler that prints a diagnostic and exits 1; otherwise
the first part's text is returned (empty string when absent). -/
def call_llm (outcome : HTTPOutcome) : CallLLMResult :=
  match outcome with
  | .requestError body => .exitFatal (.transport body)
  | .success rd =>
    match rd.candidates.getD [] with
    | [] => .exitFatal .parseErr
    | cand :: _ =>
      match (cand.content.getD ⟨none⟩).parts.getD [] with
      | [] => .exitFatal .parseErr
      | p :: _ => .ok (p.text.getD [])

/-! Model of `main` (lines 118–176). -/

/-- The environment variables `main` reads. -/
structure Env where
  issueTitle : Option (List Char)
  issueBody : Option (List Char)
  gcpProjectId : Option (List Char)
  deriving DecidableEq, Repr

/-- Python truthiness of `os.getenv` results: `not x` holds when the
variable is unset or set to the empty string. -/
def falsy (o : Option (List Char)) : Bool :=
  o.isNone || o == some []

/-- The guard on line 122: `not ISSUE_TITLE or not ISSUE_BODY or not
GCP_PROJECT_ID`. -/
def envMissing (e : Env) : Bool :=
  falsy e.issueTitle || falsy e.issueBody || falsy e.gcpProjectId

/-- Outcome of `get_gcp_auth_session`: credentials found, or
`DefaultCredentialsError` (which prints an error and exits 1). -/
inductive AuthOutcome where
  | ok
  | noCredentials
  deriving DecidableEq, Repr

/-- Observable effects of `main`, in order. -/
inductive MainEvent where
  | printEnvError
  | printCredsError
  | httpPost (n : Nat)
  | llmFatal (d : LLMDiag)
  | fsEvent (e : FileEvent)
  | exit (code : Nat)
  | printDone
  deriving DecidableEq, Repr

/-- `main` (lines 118–176) as an event trace, parameterized by the
environment, the credential lookup outcome, and the HTTP outcomes of the
two model calls: validate the environment (exit 1 if a variable is unset
or empty), authenticate, then two rounds of `call_llm` followed by
`parse_and_write_files`. `httpPost n` marks the POST issued inside the
n-th `call_llm` invocation. -/
def runMain (env : Env) (auth : AuthOutcome) (o1 o2 : HTTPOutcome) :
    List MainEvent :=
  if envMissing env then [.printEnvError, .exit 1]
  else
    match auth with
    | .noCredentials => [.printCredsError, .exit 1]
    | .ok =>
      .httpPost 1 ::
      match call_llm o1 with
      | .exitFatal d => [.llmFatal d, .exit 1]
      | .ok t1 =>
        let r1 := parse_and_write_files t1
        (r1.events.map .fsEvent) ++
        match r1.exit with
        | some c => [.exit c]
        | none =>
          .httpPost 2 ::
          match call_llm o2 with
          | .exitFatal d => [.llmFatal d, .exit 1]
          | .ok t2 =>
            let r2 := parse_and_write_files t2
            (r2.events.map .fsEvent) ++
            match r2.exit with
            | some c => [.exit c]
            | none => [.printDone]

/-! Theorems. First, the machinery for the central fact about the path
regex: the lazy capture group `(.*?)` is followed only by parts that can
match the empty string, and Python's backtracking tries the shortest
extension of a lazy group first, so whenever the pattern matches at all
the captured group is empty. -/

/-- A match result is good when the group-1 capture it reports (if any)
is empty, i.e. its start and end offsets coincide. -/
def goodRes (o : Option MRes) : Prop :=
  ∀ r, o = some r → ∃ p, r.2 = some (p, p)

theorem goodRes_none : goodRes none := by
  intro r h
  cases h

theorem goodRes_orElse {o : Option MRes} {f : Unit → Option MRes}
    (h1 : goodRes o) (h2 : goodRes (f ())) : goodRes (o.orElse f) := by
  cases o with
  | none => simpa [Option.orElse] using h2
  | some v =>
    intro r hr
    exact h1 r (by simpa [Option.orElse] using hr)

/-- The matcher for `\s*` succeeds and leaves the capture untouched as
soon as its continuation does so at every position. -/
theorem wsGreedyF_total (s : List Char) (cap : Option Cap) (k : K)
    (hk : ∀ p, ∃ q, k p cap = some (q, cap)) :
    ∀ fuel pos, ∃ q, wsGreedyF fuel s pos cap k = some (q, cap) := by
  intro fuel
  induction fuel with
  | zero => intro pos; simpa [wsGreedyF] using hk pos
  | succ n ih =>
    intro pos
    simp only [wsGreedyF]
    cases h : s[pos]? with
    | none => simpa using hk pos
    | some c =>
      by_cases hw : isWs c
      · obtain ⟨q, hq⟩ := ih (pos + 1)
        exact ⟨q, by simp [hw, hq, Option.orElse]⟩
      · simpa [hw] using hk pos

/-- The matcher for `(?:-->)?` always succeeds (present or absent) and
leaves the capture untouched. -/
theorem opt_close_total (s : List Char) (p' : Nat) (c : Option Cap) :
    ∃ q, matchRe (.opt (.lit closeCmtL)) s p' c kFin = some (q, c) := by
  simp only [matchRe]
  by_cases h : closeCmtL.isPrefixOf (s.drop p')
  · exact ⟨p' + closeCmtL.length, by simp [h, kFin, Option.orElse]⟩
  · exact ⟨p', by simp [h, kFin, Option.orElse]⟩

/-- The pattern tail `\s*(?:-->)?` always succeeds and leaves the capture
untouched. -/
theorem tail_total (s : List Char) (p : Nat) (c : Option Cap) :
    ∃ q, matchRe tailRe s p c kFin = some (q, c) := by
  exact wsGreedyF_total s c
    (fun p' c' => matchRe (.opt (.lit closeCmtL)) s p' c' kFin)
    (fun p' => opt_close_total s p' c) (s.length + 1 - p) p

/-- The lazy matcher succeeds on its very first attempt (consuming zero
characters) when the continuation accepts there. -/
theorem dotLazyF_first (fuel : Nat) (s : List Char) (start pos : Nat)
    (k : K) (v : MRes) (h : k pos (some (start, pos)) = some v) :
    dotLazyF fuel s start pos k = some v := by
  cases fuel with
  | zero => exact h
  | succ n =>
    show (k pos (some (start, pos))).orElse _ = some v
    rw [h]
    rfl

/-- The lazy group's first attempt (matching zero characters) already
succeeds, because everything after it can match empty; so `(.*?)` with
its tail always yields an empty capture at the current position. -/
theorem path_cap (s : List Char) (p : Nat) (c : Option Cap) :
    ∃ q, matchRe pathRe s p c kFin = some (q, some (p, p)) := by
  obtain ⟨q, hq⟩ := tail_total s p (some (p, p))
  exact ⟨q, dotLazyF_first (s.length + 1 - p) s p p
    (fun p' c' => matchRe tailRe s p' c' kFin) (q, some (p, p)) hq⟩

theorem goodRes_of_eq {o : Option MRes} {q p : Nat}
    (h : o = some (q, some (p, p))) : goodRes o := by
  intro r hr
  rw [h] at hr
  cases hr
  exact ⟨p, rfl⟩

theorem good_pathRe (s : List Char) (p : Nat) (c : Option Cap) :
    goodRes (matchRe pathRe s p c kFin) := by
  obtain ⟨q, hq⟩ := path_cap s p c
  exact goodRes_of_eq hq

theorem good_wsGreedyF (s : List Char) (cap : Option Cap) (k : K)
    (hk : ∀ p, goodRes (k p cap)) :
    ∀ fuel pos, goodRes (wsGreedyF fuel s pos cap k) := by
  intro fuel
  induction fuel with
  | zero => intro pos; simpa [wsGreedyF] using hk pos
  | succ n ih =>
    intro pos
    simp only [wsGreedyF]
    cases h : s[pos]? with
    | none => simpa using hk pos
    | some c =>
      by_cases hw : isWs c
      · simpa [hw] using goodRes_orElse (ih (pos + 1)) (hk pos)
      · simpa [hw] using hk pos

theorem good_lit (cs : List Char) (s : List Char) (pos : Nat)
    (cap : Option Cap) (k : K) (hk : ∀ p, goodRes (k p cap)) :
    goodRes (matchRe (.lit cs) s pos cap k) := by
  simp only [matchRe]
  by_cases h : cs.isPrefixOf (s.drop pos)
  · simpa [h] using hk (pos + cs.length)
  · simpa [h] using goodRes_none

theorem good_r4 (s : List Char) (p : Nat) (c : Option Cap) :
    goodRes (matchRe r4 s p c kFin) := by
  exact good_wsGreedyF s c (fun p' c' => matchRe pathRe s p' c' kFin)
    (fun p' => good_pathRe s p' c) (s.length + 1 - p) p

theorem good_r3 (s : List Char) (p : Nat) (c : Option Cap) :
    goodRes (matchRe r3 s p c kFin) := by
  exact good_lit fpLabelL s p c (fun p' c' => matchRe r4 s p' c' kFin)
    (fun p' => good_r4 s p' c)

theorem good_r2 (s : List Char) (p : Nat) (c : Option Cap) :
    goodRes (matchRe r2 s p c kFin) := by
  exact good_wsGreedyF s c (fun p' c' => matchRe r3 s p' c' kFin)
    (fun p' => good_r3 s p' c) (s.length + 1 - p) p

theorem good_r1 (s : List Char) (p : Nat) (c : Option Cap) :
    goodRes (matchRe r1 s p c kFin) := by
  show goodRes
    ((matchRe (.lit hashL) s p c (fun p' c' => matchRe r2 s p' c' kFin)).orElse
      (fun _ => matchRe (.lit openCmtL) s p c (fun p' c' => matchRe r2 s p' c' kFin)))
  exact goodRes_orElse
    (good_lit hashL s p c (fun p' c' => matchRe r2 s p' c' kFin)
      (fun p' => good_r2 s p' c))
    (good_lit openCmtL s p c (fun p' c' => matchRe r2 s p' c' kFin)
      (fun p' => good_r2 s p' c))

theorem good_filePathRe (s : List Char) (i : Nat) (c0 : Option Cap) :
    goodRes (matchRe filePathRe s i c0 kFin) := by
  exact good_wsGreedyF s c0 (fun p' c' => matchRe r1 s p' c' kFin)
    (fun p' => good_r1 s p' c0) (s.length + 1 - i) i

/-- `findSome?` propagates a property that holds of every element's
output. -/
theorem findSome?_good (f : Nat → Option (Nat × Nat × Option Cap))
    (hf : ∀ x r, f x = some r → ∃ p, r.2.2 = some (p, p)) :
    ∀ (l : List Nat) (r), l.findSome? f = some r → ∃ p, r.2.2 = some (p, p) := by
  intro l
  induction l with
  | nil => intro r h; simp [List.findSome?] at h
  | cons x xs ih =>
    intro r h
    rw [List.findSome?_cons] at h
    cases hx : f x with
    | some v =>
      rw [hx] at h
      cases h
      exact hf x r hx
    | none =>
      rw [hx] at h
      exact ih r h

/-- Whenever `re.search` finds a match, the reported group-1 offsets are
equal, i.e. the capture is empty. -/
theorem good_search (s : List Char) :
    ∀ r, reSearch s = some r → ∃ p, r.2.2 = some (p, p) := by
  intro r h
  refine findSome?_good _ ?_ _ r h
  intro i r' hr'
  by_cases hl : isLineStart s i
  · simp only [hl, if_true, Option.map_eq_some'] at hr'
    obtain ⟨v, hv, rfl⟩ := hr'
    obtain ⟨p, hp⟩ := good_filePathRe s i none v hv
    exact ⟨p, hp⟩
  · simp [hl] at hr'

/-- C3: for every block in which the path-declaration regex of
`parse_and_write_files` matches at all, the captured group 1 is the empty
string — the lazy capture `(.*?)` followed by the optional tail
`\s*(?:-->)?` matches zero characters — so `file_path_str` is always the
empty string (and the declared path characters remain in the text from
`match.end()` onward, which the content is taken from). -/
theorem c3_capture_group_always_empty (s : List Char) (st en : Nat)
    (cap : Option Cap) (h : reSearch s = some (st, en, cap)) :
    (∃ p, cap = some (p, p)) ∧ capStr s cap = [] ∧
    filePathStrOf s = some [] := by
  obtain ⟨p, hp⟩ := good_search s (st, en, cap) h
  simp only at hp
  refine ⟨⟨p, hp⟩, ?_, ?_⟩
  · rw [hp]
    simp [capStr]
  · simp [filePathStrOf, h, hp, capStr, pyStrip]

/-- Witness for C3 at the concrete block `# FILE_PATH: a.txt\nhi`: the
regex matches (ending just after the space that follows the label) and
the captured path is empty. -/
theorem c3_capture_group_always_empty_witness :
    reSearch "# FILE_PATH: a.txt\nhi".toList = some (0, 13, some (13, 13)) ∧
    capStr "# FILE_PATH: a.txt\nhi".toList (some (13, 13)) = [] := by
  refine ⟨by decide, ?_⟩
  exact (c3_capture_group_always_empty "# FILE_PATH: a.txt\nhi".toList
    0 13 (some (13, 13)) (by decide)).2.1

/-- The response text of the spec's end-to-end example. -/
def c1Response : List Char :=
  ("# FILE_PATH: a/b.txt\nhello\n---FILE_SEPARATOR---" ++
   "# FILE_PATH: c.txt\n```text\nworld\n```\n").toList

/-- C1 evidence (code bug): on the spec's end-to-end example the script
does not write `a/b.txt` and `c.txt`. The regex captures the empty path
for the first block, so the script creates directory `.`, attempts to
write to the empty path (whose content still starts with the declared
path characters `a/b.txt`), hits a filesystem error, and exits with
status 1 having written no file at all. -/
theorem c1_example_writes_nothing :
    parse_and_write_files c1Response =
      ⟨[.mkdirParents ['.'], .writeErr [] "a/b.txt\nhello".toList], some 1⟩ ∧
    writesOf (parse_and_write_files c1Response) = [] := by
  constructor
  · decide
  · decide

/-- C2 evidence (code bug): for the HTML-comment block
`<!-- FILE_PATH: x -->\nhi` and the hash block `# FILE_PATH: x\nhi`, the
two forms agree only in that both capture the empty path; neither
captures `x`. Moreover the text the content is taken from still begins
with the declared path (`x -->` resp. `x`), so the two forms do not even
produce the same content. -/
theorem c2_capture_is_empty_not_x :
    filePathStrOf "<!-- FILE_PATH: x -->\nhi".toList = some [] ∧
    filePathStrOf "# FILE_PATH: x\nhi".toList = some [] ∧
    filePathStrOf "<!-- FILE_PATH: x -->\nhi".toList ≠ some "x".toList ∧
    filePathStrOf "# FILE_PATH: x\nhi".toList ≠ some "x".toList ∧
    contentOf ("<!-- FILE_PATH: x -->\nhi".toList.drop 16) = "x -->\nhi".toList ∧
    contentOf ("# FILE_PATH: x\nhi".toList.drop 13) = "x\nhi".toList := by
  refine ⟨by decide, by decide, by decide, by decide, by decide, by decide⟩

/-! Machinery for the fence round-trip (C4) and the no-newline corner
case of the opening-fence removal (C10). -/

theorem findNl_append (l r : List Char) (h : '\n' ∉ l) :
    findNl (l ++ '\n' :: r) = some l.length := by
  induction l with
  | nil => simp [findNl]
  | cons c cs ih =>
    have hc : ¬ c = '\n' := fun e => h (by simp [e])
    have ihh := ih (fun hm => h (List.mem_cons_of_mem _ hm))
    simp [findNl, hc, ihh]

theorem findNl_eq_none (l : List Char) (h : '\n' ∉ l) : findNl l = none := by
  induction l with
  | nil => rfl
  | cons c cs ih =>
    have hc : ¬ c = '\n' := fun e => h (by simp [e])
    have ihh := ih (fun hm => h (List.mem_cons_of_mem _ hm))
    simp [findNl, hc, ihh]

theorem pyStrip_fenceWrap (lang abc : List Char) :
    pyStrip (fenceWrap lang abc) = fenceWrap lang abc := by
  have hb : isWs btick = false := by decide
  have hfront : (fenceWrap lang abc).dropWhile isWs = fenceWrap lang abc := by
    rw [show fenceWrap lang abc = btick ::
      (((([btick, btick] ++ lang) ++ ['\n']) ++ abc) ++ ['\n'] ++ fenceL) from rfl]
    rw [List.dropWhile_cons]
    simp [hb]
  have hrev : (fenceWrap lang abc).reverse = btick ::
      ([btick, btick] ++ ((((fenceL ++ lang) ++ ['\n']) ++ abc) ++ ['\n']).reverse) := by
    rw [show fenceWrap lang abc =
      ((((fenceL ++ lang) ++ ['\n']) ++ abc) ++ ['\n']) ++ fenceL from rfl]
    rw [List.reverse_append]
    rfl
  unfold pyStrip
  rw [hfront, hrev, List.dropWhile_cons]
  simp only [hb, Bool.false_eq_true, if_false]
  rw [← hrev, List.reverse_reverse]

theorem dropOpenFence_fenceWrap (lang abc : List Char) (h : '\n' ∉ lang) :
    dropOpenFence (fenceWrap lang abc) = abc ++ '\n' :: fenceL := by
  have hshape : fenceWrap lang abc =
      (fenceL ++ lang) ++ '\n' :: (abc ++ '\n' :: fenceL) := by
    simp [fenceWrap, List.append_assoc]
  have hpre : fenceL.isPrefixOf (fenceWrap lang abc) = true := by
    rw [List.isPrefixOf_iff_prefix, hshape, List.append_assoc]
    exact List.prefix_append fenceL _
  have hnotin : '\n' ∉ fenceL ++ lang := by
    intro hm
    rcases List.mem_append.mp hm with hm | hm
    · exact absurd hm (by decide)
    · exact h hm
  have hfind : findNl (fenceWrap lang abc) = some (fenceL ++ lang).length := by
    rw [hshape]
    exact findNl_append _ _ hnotin
  rw [dropOpenFence, if_pos hpre, hfind]
  show (fenceWrap lang abc).drop ((fenceL ++ lang).length + 1) = abc ++ '\n' :: fenceL
  rw [hshape]
  rw [show (fenceL ++ lang).length + 1 = ((fenceL ++ lang) ++ ['\n']).length by
    simp [List.length_append]
    omega]
  rw [show (fenceL ++ lang) ++ '\n' :: (abc ++ '\n' :: fenceL) =
    ((fenceL ++ lang) ++ ['\n']) ++ (abc ++ '\n' :: fenceL) by simp]
  exact List.drop_left _ _

theorem dropCloseFence_tail (abc : List Char) :
    dropCloseFence (abc ++ '\n' :: fenceL) = abc ++ ['\n'] := by
  have hshape : abc ++ '\n' :: fenceL = (abc ++ ['\n']) ++ fenceL := by simp
  have hsuf : fenceL.isSuffixOf (abc ++ '\n' :: fenceL) = true := by
    rw [List.isSuffixOf_iff_suffix, hshape]
    exact List.suffix_append _ _
  have hlen : (abc ++ '\n' :: fenceL).length - 3 = (abc ++ ['\n']).length := by
    simp [fenceL]
  rw [dropCloseFence, if_pos hsuf, hlen, hshape]
  exact List.take_left _ _

theorem pyStrip_append_nl (l : List Char) :
    pyStrip (l ++ ['\n']) = pyStrip l := by
  induction l with
  | nil => rfl
  | cons c cs ih =>
    by_cases hc : isWs c
    · simp only [List.cons_append, pyStrip, List.dropWhile_cons, hc, if_true] at ih ⊢
      exact ih
    · simp only [List.cons_append, pyStrip, List.dropWhile_cons, hc,
        Bool.false_eq_true, if_false]
      have h2 : (c :: (cs ++ ['\n'])).reverse = '\n' :: (c :: cs).reverse := by
        rw [← List.cons_append, List.reverse_append]
        rfl
      rw [h2, List.dropWhile_cons]
      simp [show isWs '\n' = true from rfl]

/-- C4: round-trip fence stripping — a block whose text after the path
declaration is `ABC` wrapped as an opening triple-backtick fence with a
language tag (containing no newline), newline, `ABC`, newline, closing
fence, materializes to content exactly `ABC` (with surrounding whitespace
trimmed): the language tag and both fences are removed. -/
theorem c4_fence_round_trip (lang abc : List Char) (h : '\n' ∉ lang) :
    contentOf (fenceWrap lang abc) = pyStrip abc ∧
    (pyStrip abc = abc → contentOf (fenceWrap lang abc) = abc) := by
  have hmain : contentOf (fenceWrap lang abc) = pyStrip abc := by
    rw [contentOf, pyStrip_fenceWrap, dropOpenFence_fenceWrap lang abc h,
      dropCloseFence_tail, pyStrip_append_nl]
  exact ⟨hmain, fun htrim => by rw [hmain, htrim]⟩

/-- Witness for C4 at `lang = text`, `ABC = world`: the wrapped block
materializes to exactly `world`. -/
theorem c4_fence_round_trip_witness :
    ('\n' ∉ "text".toList) ∧
    contentOf (fenceWrap "text".toList "world".toList) = "world".toList := by
  refine ⟨by decide, ?_⟩
  have h := (c4_fence_round_trip "text".toList "world".toList (by decide)).2
  exact h (by decide)

/-- C5: a non-empty block in which no path declaration matches produces
zero file writes; a warning echoing a 200-character prefix of the block
is emitted, and processing continues with the next block in order — the
exit status is whatever the remaining blocks produce, so this per-block
condition never terminates the process. -/
theorem c5_no_path_warns_and_continues (b : List Char)
    (rest : List (List Char)) (h1 : pyStrip b ≠ []) (h2 : reSearch b = none) :
    pawGo (b :: rest) =
      ⟨.warnNoPath (b.take 200) :: (pawGo rest).events, (pawGo rest).exit⟩ ∧
    writesOf (pawGo (b :: rest)) = writesOf (pawGo rest) := by
  have hrun : pawGo (b :: rest) =
      ⟨.warnNoPath (b.take 200) :: (pawGo rest).events, (pawGo rest).exit⟩ := by
    simp [pawGo, h1, h2]
  refine ⟨hrun, ?_⟩
  rw [hrun]
  simp [writesOf]

/-- Witness for C5 at the concrete block `just some text` (no declaration)
followed by no further blocks. -/
theorem c5_no_path_warns_and_continues_witness :
    pyStrip "just some text".toList ≠ [] ∧
    reSearch "just some text".toList = none ∧
    pawGo ["just some text".toList] =
      ⟨[.warnNoPath "just some text".toList], none⟩ := by
  refine ⟨by decide, by decide, ?_⟩
  have h := (c5_no_path_warns_and_continues "just some text".toList []
    (by decide) (by decide)).1
  rw [h]
  decide

/-- C10: if the trimmed content after the matched declaration starts with
a triple-backtick fence but contains no newline character, the
opening-fence removal leaves it unchanged (`find` returns `-1`, so the
slice starts at index `-1 + 1 = 0`); only the independent trailing-fence
check may then remove the final three characters, so the final content is
the strip of the trailing-fence-check result alone. -/
theorem c10_open_fence_without_newline (cb : List Char)
    (h1 : fenceL.isPrefixOf cb = true) (h2 : '\n' ∉ cb)
    (h3 : pyStrip cb = cb) :
    dropOpenFence cb = cb ∧ contentOf cb = pyStrip (dropCloseFence cb) := by
  have hnl : findNl cb = none := findNl_eq_none cb h2
  have hopen : dropOpenFence cb = cb := by
    rw [dropOpenFence, if_pos h1, hnl]
    rfl
  exact ⟨hopen, by rw [contentOf, h3, hopen]⟩

/-- Witness for C10 at the fenced one-liner made of a fence, `abc`, and a
closing fence, with no newline: the opening-fence removal keeps it
intact and only the trailing three backticks are dropped. -/
theorem c10_open_fence_without_newline_witness :
    fenceL.isPrefixOf (fenceL ++ "abc".toList ++ fenceL) = true ∧
    ('\n' ∉ fenceL ++ "abc".toList ++ fenceL) ∧
    dropOpenFence (fenceL ++ "abc".toList ++ fenceL) =
      fenceL ++ "abc".toList ++ fenceL := by
  refine ⟨by decide, by decide, ?_⟩
  exact (c10_open_fence_without_newline (fenceL ++ "abc".toList ++ fenceL)
    (by decide) (by decide) (by decide)).1

/-- C9: at every write `parse_and_write_files` performs (successful or
failing), the write is immediately preceded by the creation — with
missing ancestors, `exist_ok` — of the target path's parent directory;
the write itself then overwrites without confirmation in the filesystem
model. Stated as: the event trace of every run satisfies
`mkdirBeforeWrite`. -/
theorem c9_mkdir_parents_before_every_write (responseText : List Char) :
    mkdirBeforeWrite (parse_and_write_files responseText).events = true := by
  rw [parse_and_write_files]
  generalize splitSep responseText = bs
  induction bs with
  | nil => rfl
  | cons b rest ih =>
    by_cases hstrip : pyStrip b = []
    · simpa [pawGo, hstrip] using ih
    · cases hre : reSearch b with
      | none => simpa [pawGo, hstrip, hre, mkdirBeforeWrite] using ih
      | some m =>
        obtain ⟨st, en, cap⟩ := m
        by_cases hw : writeFails (pyStrip (capStr b cap))
        · simp [pawGo, hstrip, hre, hw, mkdirBeforeWrite]
        · simpa [pawGo, hstrip, hre, hw, mkdirBeforeWrite] using ih

/-- C6: if the first model call fails at transport level (network error
or non-2xx HTTP status), the program prints the error (and the response
body when one is available), exits with status 1, performs no file
writes, and never issues the second model call: the whole trace is the
first POST, the transport diagnostic, and the exit. -/
theorem c6_first_call_transport_failure (env : Env) (o2 : HTTPOutcome)
    (b : Option (List Char)) (h : envMissing env = false) :
    runMain env .ok (.requestError b) o2 =
      [.httpPost 1, .llmFatal (.transport b), .exit 1] ∧
    (∀ e, MainEvent.fsEvent e ∉ runMain env .ok (.requestError b) o2) ∧
    MainEvent.httpPost 2 ∉ runMain env .ok (.requestError b) o2 ∧
    MainEvent.exit 1 ∈ runMain env .ok (.requestError b) o2 := by
  have hrun : runMain env .ok (.requestError b) o2 =
      [.httpPost 1, .llmFatal (.transport b), .exit 1] := by
    simp [runMain, h, call_llm]
  refine ⟨hrun, ?_, ?_, ?_⟩ <;> rw [hrun] <;> simp

/-- Witness for C6 at a concrete fully-set environment and a transport
error without a body. -/
theorem c6_first_call_transport_failure_witness :
    envMissing ⟨some "t".toList, some "b".toList, some "p".toList⟩ = false ∧
    runMain ⟨some "t".toList, some "b".toList, some "p".toList⟩ .ok
        (.requestError none) (.success ⟨none⟩) =
      [.httpPost 1, .llmFatal (.transport none), .exit 1] := by
  refine ⟨by decide, ?_⟩
  exact (c6_first_call_transport_failure
    ⟨some "t".toList, some "b".toList, some "p".toList⟩
    (.success ⟨none⟩) none (by decide)).1

/-- C7: in `call_llm`, a transport failure and a response with a missing
or empty `candidates` list, or whose first candidate's content has a
missing or empty `parts` list, are all handled the same way — a
diagnostic is printed and the process exits with status 1 (`exitFatal`);
otherwise `call_llm` returns the first part's text, or the empty string
if the text field is absent. -/
theorem c7_call_llm_validation :
    (∀ b, call_llm (.requestError b) = .exitFatal (.transport b)) ∧
    (∀ rd : ResponseData, rd.candidates.getD [] = [] →
      call_llm (.success rd) = .exitFatal .parseErr) ∧
    (∀ (rd : ResponseData) (c : Candidate) (cs : List Candidate),
      rd.candidates = some (c :: cs) →
      (c.content.getD ⟨none⟩).parts.getD [] = [] →
      call_llm (.success rd) = .exitFatal .parseErr) ∧
    (∀ (rd : ResponseData) (c : Candidate) (cs : List Candidate)
      (p : RespPart) (ps : List RespPart),
      rd.candidates = some (c :: cs) →
      (c.content.getD ⟨none⟩).parts = some (p :: ps) →
      call_llm (.success rd) = .ok (p.text.getD [])) := by
  refine ⟨fun b => rfl, ?_, ?_, ?_⟩
  · intro rd h
    simp [call_llm, h]
  · intro rd c cs h1 h2
    simp [call_llm, h1, h2]
  · intro rd c cs p ps h1 h2
    simp [call_llm, h1, h2]

/-- Witness for C7: a response with no `candidates` key exits fatally,
and a well-formed response returns the first part's text. -/
theorem c7_call_llm_validation_witness :
    call_llm (.success ⟨none⟩) = .exitFatal .parseErr ∧
    call_llm (.success ⟨some [⟨some ⟨some [⟨some "hi".toList⟩]⟩⟩]⟩) =
      .ok "hi".toList := by
  constructor
  · exact c7_call_llm_validation.2.1 ⟨none⟩ rfl
  · exact c7_call_llm_validation.2.2.2 ⟨some [⟨some ⟨some [⟨some "hi".toList⟩]⟩⟩]⟩
      ⟨some ⟨some [⟨some "hi".toList⟩]⟩⟩ [] ⟨some "hi".toList⟩ [] rfl rfl

/-- C8: if any required environment-derived input (issue title, issue
body, or the cloud project identifier) is missing, `main` prints an error
and exits with status 1 before performing any network activity — the
trace contains no POST at all. -/
theorem c8_missing_env_exits_before_network (env : Env)
    (auth : AuthOutcome) (o1 o2 : HTTPOutcome)
    (h : env.issueTitle = none ∨ env.issueBody = none ∨
      env.gcpProjectId = none) :
    runMain env auth o1 o2 = [.printEnvError, .exit 1] ∧
    (∀ n, MainEvent.httpPost n ∉ runMain env auth o1 o2) := by
  have hm : envMissing env = true := by
    rcases h with h | h | h <;> simp [envMissing, falsy, h]
  have hrun : runMain env auth o1 o2 = [.printEnvError, .exit 1] := by
    simp [runMain, hm]
  exact ⟨hrun, fun n => by rw [hrun]; simp⟩

/-- Witness for C8 with the issue title unset. -/
theorem c8_missing_env_exits_before_network_witness :
    (⟨none, some "b".toList, some "p".toList⟩ : Env).issueTitle = none ∧
    runMain ⟨none, some "b".toList, some "p".toList⟩ .ok
        (.success ⟨none⟩) (.success ⟨none⟩) = [.printEnvError, .exit 1] := by
  refine ⟨rfl, ?_⟩
  exact (c8_missing_env_exits_before_network
    ⟨none, some "b".toList, some "p".toList⟩ .ok (.success ⟨none⟩)
    (.success ⟨none⟩) (Or.inl rfl)).1

end AiAgent
